import Mathlib

/-!
Shallow embedding of the reminder due-detection / notification engine and the
month-scoped aggregation logic of the Personal Budget Tracker application
(`App.tsx`, `ReminderModal.tsx`, `types.ts`).

Instants are modelled as `Int` milliseconds since the Unix epoch (the value of
`Date.prototype.getTime()`); calendar dates and wall-clock times are modelled
structurally (the `YYYY-MM-DD` / `HH:mm` strings of the source are in bijection
with these records for well-formed inputs).  Currency amounts are modelled as
`ℚ` (the source uses JS numbers; the spec requires exact accumulation).
-/

/-- The `notificationSound` enumeration from `types.ts`:
`'default' | 'beep' | 'chime' | 'vibrate' | 'none'`. -/
inductive NotificationSound where
  | default
  | beep
  | chime
  | vibrate
  | none
deriving DecidableEq

/-- A calendar date, the structural form of a `YYYY-MM-DD` string. -/
structure DateYMD where
  year : Int
  month : Nat
  day : Nat
deriving DecidableEq

/-- A wall-clock time, the structural form of an `HH:mm` string. -/
structure TimeHM where
  hour : Nat
  minute : Nat
deriving DecidableEq

/-- Days since 1970-01-01 of a civil date (the standard Gregorian
days-from-civil computation used by `Date` when parsing a date string). -/
def daysFromCivil (y : Int) (m : Nat) (d : Nat) : Int :=
  let y' : Int := if m ≤ 2 then y - 1 else y
  let era : Int := (if 0 ≤ y' then y' else y' - 399) / 400
  let yoe : Nat := (y' - era * 400).toNat
  let doy : Nat := (153 * (if 2 < m then m - 3 else m + 9) + 2) / 5 + d - 1
  let doe : Nat := yoe * 365 + yoe / 4 - yoe / 100 + doy
  era * 146097 + (doe : Int) - 719468

/-- The due-instant of a date/time pair, in epoch milliseconds: the model of
`new Date(`${r.dueDate}T${r.dueTime}`).getTime()` (App.tsx line 268). -/
def combine (d : DateYMD) (t : TimeHM) : Int :=
  daysFromCivil d.year d.month d.day * 86400000
    + (t.hour * 3600000 + t.minute * 60000 : Nat)

/-- The `Reminder` record from `types.ts`.  `snoozeUntil` is an optional ISO
instant, modelled as its epoch-millisecond value. -/
structure Reminder where
  id : String
  billName : String
  amount : ℚ
  dueDate : DateYMD
  dueTime : TimeHM
  notified : Bool
  notificationSound : NotificationSound
  snoozeUntil : Option Int
deriving DecidableEq

/-- `dueInstant = combine(dueDate, dueTime)` for a reminder. -/
def Reminder.dueInstant (r : Reminder) : Int :=
  combine r.dueDate r.dueTime

/-- `isSnoozed = r.snoozeUntil && now < new Date(r.snoozeUntil)`
(App.tsx line 270); a missing `snoozeUntil` is falsy. -/
def Reminder.isSnoozed (r : Reminder) (now : Int) : Bool :=
  match r.snoozeUntil with
  | Option.some s => decide (now < s)
  | Option.none => false

/-- The firing condition `isDue && !r.notified && !isSnoozed` of
App.tsx line 272, where `isDue = dueDate <= now` (line 269). -/
def Reminder.newlyDue (r : Reminder) (now : Int) : Bool :=
  decide (r.dueInstant ≤ now) && !r.notified && !(r.isSnoozed now)

/-- The pure core of `checkReminders` (App.tsx lines 263–297): one pass over
the reminder list, returning `(updatedReminders, dueReminders)`.  A newly-due
reminder is pushed onto the due list and replaced by `{ ...r, notified: true }`
in the updated list; every other reminder passes through unchanged. -/
def checkReminders : List Reminder → Int → List Reminder × List Reminder
  | [], _ => ([], [])
  | r :: rs, now =>
    let rest := checkReminders rs now
    if r.newlyDue now then ({ r with notified := true } :: rest.1, r :: rest.2)
    else (r :: rest.1, rest.2)

/-- The updated list produced by `checkReminders` is a pointwise map. -/
theorem checkReminders_fst (rs : List Reminder) (now : Int) :
    (checkReminders rs now).1 =
      rs.map (fun r => if r.newlyDue now then { r with notified := true } else r) := by
  induction rs with
  | nil => rfl
  | cons r rs ih =>
    simp only [checkReminders, List.map_cons]
    by_cases h : r.newlyDue now = true
    · simp [h, ih]
    · simp [h, ih]

/-- The fired list produced by `checkReminders` is a filter. -/
theorem checkReminders_snd (rs : List Reminder) (now : Int) :
    (checkReminders rs now).2 = rs.filter (fun r => r.newlyDue now) := by
  induction rs with
  | nil => rfl
  | cons r rs ih =>
    simp only [checkReminders, List.filter_cons]
    by_cases h : r.newlyDue now = true
    · simp [h, ih]
    · simp [h, ih]

/-- An audio side effect produced by the audio backend: a sine tone with a
frequency (Hz) and duration (seconds), or a device vibration pattern (ms). -/
inductive AudioEffect where
  | tone (freq : ℚ) (durationSeconds : ℚ)
  | vibration (pattern : List Nat)
deriving DecidableEq

/-- `playNotificationSound` (App.tsx lines 230–261) as the list of audio
effects it emits, in order.  The JS `switch` has cases only for `'beep'`,
`'chime'` and `'vibrate'`; both `'default'` and `'none'` fall into the
do-nothing `default:` branch.  `'vibrate'` calls `navigator.vibrate` only when
the capability exists (`'vibrate' in navigator`), a silent no-op otherwise. -/
def playNotificationSound (sound : NotificationSound) (vibrateSupported : Bool) :
    List AudioEffect :=
  match sound with
  | NotificationSound.beep => [AudioEffect.tone 880 (1/5)]
  | NotificationSound.chime =>
      [AudioEffect.tone (2093/2) (3/20), AudioEffect.tone (13969/10) (3/20)]
  | NotificationSound.vibrate =>
      if vibrateSupported then [AudioEffect.vibration [200, 100, 200]] else []
  | _ => []

/-- The model of `Number.prototype.toFixed(2)` on an exact amount: round to
cents (half away from zero on non-negative amounts, matching the source's
non-negative currency values) and print with exactly two decimals. -/
def toFixed2 (q : ℚ) : String :=
  let c : Int := (q * 100 + 1/2).floor
  let n : Nat := c.natAbs
  let f : Nat := n % 100
  (if c < 0 then "-" else "") ++ toString (n / 100) ++ "."
    ++ (if f < 10 then "0" else "") ++ toString f

/-- An OS-level notification as constructed by `new Notification(...)`
(App.tsx lines 287–290). -/
structure OSNotification where
  title : String
  body : String
  silent : Bool
deriving DecidableEq

/-- The visibility/permission-dependent routing of one fired reminder
(App.tsx lines 285–294): in a background tab (`document.hidden`) with
permission granted, emit one OS notification with the bill name and formatted
amount, silent unless the sound is `'default'`; in a foreground tab, insert
the reminder into the active-notification list, dropping any prior entry with
the same id.  Returns the new active-notification list and the emitted OS
notification, if any. -/
def routeReminder (r : Reminder) (hidden : Bool) (permissionGranted : Bool)
    (active : List Reminder) : List Reminder × Option OSNotification :=
  if hidden then
    (active,
      if permissionGranted then
        Option.some
          { title := "Bill Reminder",
            body := r.billName ++ " for $" ++ toFixed2 r.amount ++ " is due!",
            silent := !(r.notificationSound = NotificationSound.default : Bool) }
      else Option.none)
  else
    (active.filter (fun n => decide (n.id ≠ r.id)) ++ [r], Option.none)

/-- The `type` enumeration of transactions: `'income' | 'expense'`. -/
inductive TransactionType where
  | income
  | expense
deriving DecidableEq

/-- The `Transaction` record from `types.ts`; the ISO date string is modelled
by its calendar date. -/
structure Transaction where
  id : String
  type : TransactionType
  category : String
  amount : ℚ
  date : DateYMD
  description : String
deriving DecidableEq

/-- The month filter of `filteredTransactions` (App.tsx lines 210–215): keep
the transactions whose date has the viewed calendar year and month. -/
def filterToMonth (ts : List Transaction) (year : Int) (month : Nat) :
    List Transaction :=
  ts.filter (fun t => decide (t.date.year = year ∧ t.date.month = month))

/-- `totalIncome` (App.tsx line 305): filter to income, accumulate amounts
with `reduce((sum, t) => sum + t.amount, 0)`. -/
def totalIncome (ts : List Transaction) : ℚ :=
  (ts.filter (fun t => decide (t.type = TransactionType.income))).foldl
    (fun sum t => sum + t.amount) 0

/-- `totalExpenses` (App.tsx line 306). -/
def totalExpenses (ts : List Transaction) : ℚ :=
  (ts.filter (fun t => decide (t.type = TransactionType.expense))).foldl
    (fun sum t => sum + t.amount) 0

/-- `balance = income - expenses` (App.tsx line 307). -/
def balance (ts : List Transaction) : ℚ :=
  totalIncome ts - totalExpenses ts

/-- The reminder-related component state of `BudgetTrackerApp`: the persisted
reminder store and the transient in-memory active-notification list. -/
structure AppState where
  reminders : List Reminder
  activeNotifications : List Reminder
deriving DecidableEq

/-- `handleSaveReminder` (App.tsx lines 337–346): replace the reminder with a
matching id, or append when the id is new. -/
def handleSaveReminder (s : AppState) (reminder : Reminder) : AppState :=
  { s with reminders :=
      if (s.reminders.filter (fun r => decide (r.id = reminder.id))).isEmpty then
        s.reminders ++ [reminder]
      else
        s.reminders.map (fun r => if r.id = reminder.id then reminder else r) }

/-- `handleDeleteReminder` (App.tsx lines 353–355): drop the reminder from the
store; the active-notification list is left untouched. -/
def handleDeleteReminder (s : AppState) (id : String) : AppState :=
  { s with reminders := s.reminders.filter (fun r => decide (r.id ≠ id)) }

/-- `handleSnoozeReminder` (App.tsx lines 362–371): on the matching reminder
set `snoozeUntil = now + 10 minutes` (600000 ms) and `notified = false`, and
drop the id from the active-notification list. -/
def handleSnoozeReminder (s : AppState) (id : String) (now : Int) : AppState :=
  { reminders := s.reminders.map (fun r =>
      if r.id = id then { r with snoozeUntil := Option.some (now + 600000),
                                 notified := false }
      else r),
    activeNotifications :=
      s.activeNotifications.filter (fun n => decide (n.id ≠ id)) }

/-- `handleDismissNotification` (App.tsx lines 373–375). -/
def handleDismissNotification (s : AppState) (id : String) : AppState :=
  { s with activeNotifications :=
      s.activeNotifications.filter (fun n => decide (n.id ≠ id)) }

/-- One periodic `checkReminders` tick (App.tsx lines 263–297) acting on the
component state: the store becomes the updated list when anything fired
(`if (dueReminders.length > 0) setReminders(updatedReminders)`), and each
fired reminder is routed in order through the visibility branch of the
`forEach`, updating the active-notification list in the foreground case. -/
def tick (s : AppState) (now : Int) (hidden : Bool) (permissionGranted : Bool) :
    AppState :=
  let result := checkReminders s.reminders now
  { reminders := if result.2.isEmpty then s.reminders else result.1,
    activeNotifications :=
      result.2.foldl
        (fun act r => (routeReminder r hidden permissionGranted act).1)
        s.activeNotifications }

/-- A user- or timer-initiated operation on the reminder state. -/
inductive Op where
  | tickOp (now : Int) (hidden : Bool) (permissionGranted : Bool)
  | save (r : Reminder)
  | delete (id : String)
  | snooze (id : String) (now : Int)
  | dismiss (id : String)
deriving DecidableEq

/-- Apply one operation to the component state. -/
def applyOp (s : AppState) : Op → AppState
  | Op.tickOp now hidden perm => tick s now hidden perm
  | Op.save r => handleSaveReminder s r
  | Op.delete id => handleDeleteReminder s id
  | Op.snooze id now => handleSnoozeReminder s id now
  | Op.dismiss id => handleDismissNotification s id

/-- Apply a sequence of operations from left to right. -/
def applyOps (s : AppState) (ops : List Op) : AppState :=
  ops.foldl applyOp s

/-- The ActiveNotification-set invariant claimed by the spec: every displayed
notification's id belongs to a reminder in the store. -/
def idInv (s : AppState) : Prop :=
  ∀ n ∈ s.activeNotifications, ∃ r ∈ s.reminders, r.id = n.id

/-- The form fields of `ReminderModal` at submission time. -/
structure ReminderForm where
  billName : String
  amount : ℚ
  dueDate : DateYMD
  dueTime : TimeHM
  notificationSound : NotificationSound
deriving DecidableEq

/-- `ReminderModal.handleSubmit` (ReminderModal.tsx lines 697–718 of the
concatenated source): build the saved reminder.  `shouldResetStatus` holds
when editing, the submitted due date or time differs from the persisted one,
and the recomputed due-instant is strictly after the submission instant `now`
(`newDueDate > new Date()`); in that case `notified`/`snoozeUntil` are reset,
otherwise the persisted values carry over.  A fresh creation takes `freshId`
(the source uses `new Date().getTime().toString()`).
`shouldResetStatus` is the guard computed at ReminderModal.tsx lines 702–704. -/
def shouldResetStatus (old : Reminder) (form : ReminderForm) (now : Int) : Bool :=
  (decide (old.dueDate ≠ form.dueDate) || decide (old.dueTime ≠ form.dueTime))
    && decide (now < combine form.dueDate form.dueTime)

def reminderModalSubmit (reminderToEdit : Option Reminder) (form : ReminderForm)
    (now : Int) (freshId : String) : Reminder :=
  let shouldResetStatus :=
    match reminderToEdit with
    | Option.some old => shouldResetStatus old form now
    | Option.none => false
  { id := match reminderToEdit with
          | Option.some old => old.id
          | Option.none => freshId,
    billName := form.billName,
    amount := form.amount,
    dueDate := form.dueDate,
    dueTime := form.dueTime,
    notificationSound := form.notificationSound,
    notified := if shouldResetStatus then false else
      match reminderToEdit with
      | Option.some old => old.notified
      | Option.none => false,
    snoozeUntil := if shouldResetStatus then Option.none else
      match reminderToEdit with
      | Option.some old => old.snoozeUntil
      | Option.none => Option.none }

/-- The spec's wording of "newly due": due-instant has passed, not yet
notified, and not snoozed (`snoozeUntil` absent, or `now` at or past it). -/
def specNewlyDue (r : Reminder) (now : Int) : Prop :=
  r.dueInstant ≤ now ∧ r.notified = false ∧
    (r.snoozeUntil = Option.none ∨ ∃ s, r.snoozeUntil = Option.some s ∧ s ≤ now)

instance (r : Reminder) (now : Int) : Decidable (specNewlyDue r now) := by
  unfold specNewlyDue; infer_instance

/-- The boolean firing condition of the source agrees with the spec's wording
of "newly due". -/
theorem newlyDue_iff_specNewlyDue (r : Reminder) (now : Int) :
    r.newlyDue now = true ↔ specNewlyDue r now := by
  unfold Reminder.newlyDue specNewlyDue Reminder.isSnoozed
  cases h : r.snoozeUntil with
  | none => simp [h]
  | some s =>
      simp only [h, Bool.and_eq_true, Bool.not_eq_true', decide_eq_true_iff,
        decide_eq_false_iff_not, Bool.not_eq_true]
      constructor
      · rintro ⟨⟨hdue, hn⟩, hs⟩
        exact ⟨hdue, by simpa using hn,
          Or.inr ⟨s, rfl, by simpa using not_lt.mp (by simpa using hs)⟩⟩
      · rintro ⟨hdue, hn, hsn⟩
        refine ⟨⟨hdue, by simpa using hn⟩, ?_⟩
        rcases hsn with h0 | ⟨s', hs', hle⟩
        · exact absurd h0 (by simp)
        · rw [Option.some.injEq] at hs'
          subst hs'
          exact not_lt.mpr hle

/-- A concrete reminder used to exercise the theorems: due 1970-01-01T00:00
(due-instant 0), not notified, not snoozed. -/
def sampleReminder : Reminder :=
  { id := "r1", billName := "Rent", amount := 50,
    dueDate := { year := 1970, month := 1, day := 1 },
    dueTime := { hour := 0, minute := 0 },
    notified := false, notificationSound := NotificationSound.beep,
    snoozeUntil := Option.none }

/-- A concrete reminder under an active snooze window (`snoozeUntil = 500`). -/
def snoozedReminder : Reminder :=
  { sampleReminder with id := "r2", snoozeUntil := Option.some 500 }

/-- C1: a reminder is in the fired list of `checkReminders` iff it is in the
input list, its due-instant `combine(dueDate, dueTime)` is ≤ `now`, `notified`
is false, and it is not snoozed (`snoozeUntil` absent or `now ≥ snoozeUntil`);
each newly-due reminder reappears at its position in the updated list with
`notified = true` and every other field unchanged, each other reminder passes
through at its position unmodified, and a reminder with an active snooze
window (`now < snoozeUntil`) is never fired. -/
theorem checkReminders_newly_due_characterisation
    (rs : List Reminder) (now : Int) :
    (∀ r, r ∈ (checkReminders rs now).2 ↔ r ∈ rs ∧ specNewlyDue r now) ∧
    (∀ (i : Nat) (r : Reminder), rs[i]? = Option.some r →
      (specNewlyDue r now →
        (checkReminders rs now).1[i]? = Option.some { r with notified := true }) ∧
      (¬ specNewlyDue r now →
        (checkReminders rs now).1[i]? = Option.some r)) ∧
    (∀ r s, r.snoozeUntil = Option.some s → now < s →
        r ∉ (checkReminders rs now).2) := by
  refine ⟨?_, ?_, ?_⟩
  · intro r
    rw [checkReminders_snd, List.mem_filter, newlyDue_iff_specNewlyDue]
  · intro i r hi
    rw [checkReminders_fst]
    constructor
    · intro hdue
      rw [List.getElem?_map, hi, Option.map_some']
      rw [if_pos ((newlyDue_iff_specNewlyDue r now).mpr hdue)]
    · intro hdue
      rw [List.getElem?_map, hi, Option.map_some']
      rw [if_neg (fun hb => hdue ((newlyDue_iff_specNewlyDue r now).mp hb))]
  · intro r s hsome hlt hmem
    rw [checkReminders_snd, List.mem_filter, newlyDue_iff_specNewlyDue] at hmem
    rcases hmem.2.2.2 with h0 | ⟨s', hs', hle⟩
    · rw [hsome] at h0; exact absurd h0 (by simp)
    · rw [hsome, Option.some.injEq] at hs'
      subst hs'
      exact absurd hle (not_le.mpr hlt)

/-- Closed instantiation of the C1 theorem: at `now = 100` the due,
un-notified, un-snoozed `sampleReminder` fires, while `snoozedReminder`
(snoozed until 500) does not. -/
theorem checkReminders_newly_due_characterisation_witness :
    sampleReminder ∈ (checkReminders [sampleReminder, snoozedReminder] 100).2 ∧
    snoozedReminder ∉ (checkReminders [sampleReminder, snoozedReminder] 100).2 := by
  constructor
  · exact ((checkReminders_newly_due_characterisation
      [sampleReminder, snoozedReminder] 100).1 sampleReminder).mpr
      ⟨by simp, by decide⟩
  · exact (checkReminders_newly_due_characterisation
      [sampleReminder, snoozedReminder] 100).2.2 snoozedReminder 500 rfl (by decide)

/-- C2: evaluating a second time at the same instant on the updated list of a
first evaluation fires nothing. -/
theorem checkReminders_idempotent (rs : List Reminder) (now : Int) :
    (checkReminders (checkReminders rs now).1 now).2 = [] := by
  rw [checkReminders_fst, checkReminders_snd, List.filter_map,
    List.filter_eq_nil_iff.mpr, List.map_nil]
  intro r _
  by_cases h : r.newlyDue now = true
  · simp only [Function.comp_apply, h, if_true]
    simp [Reminder.newlyDue]
  · simp only [Function.comp_apply, h, if_false, Bool.not_eq_true]
    simpa using h

/-- C10: the updated list of `checkReminders` has the same ids in the same
order (hence the same length) as the input, and each position either carries
the input reminder unchanged or the same reminder with only the `notified`
flag flipped from false to true. -/
theorem checkReminders_preserves_shape (rs : List Reminder) (now : Int) :
    (checkReminders rs now).1.map Reminder.id = rs.map Reminder.id ∧
    (checkReminders rs now).1.length = rs.length ∧
    (∀ (i : Nat) (r : Reminder), rs[i]? = Option.some r →
      ∃ u, (checkReminders rs now).1[i]? = Option.some u ∧
        u.id = r.id ∧ u.billName = r.billName ∧ u.amount = r.amount ∧
        u.dueDate = r.dueDate ∧ u.dueTime = r.dueTime ∧
        u.notificationSound = r.notificationSound ∧
        u.snoozeUntil = r.snoozeUntil ∧
        (u.notified = r.notified ∨ (r.notified = false ∧ u.notified = true))) := by
  refine ⟨?_, ?_, ?_⟩
  · rw [checkReminders_fst, List.map_map]
    refine List.map_congr_left ?_
    intro r _
    by_cases h : r.newlyDue now = true <;> simp [h]
  · rw [checkReminders_fst, List.length_map]
  · intro i r hi
    rw [checkReminders_fst, List.getElem?_map, hi, Option.map_some']
    by_cases h : r.newlyDue now = true
    · refine ⟨{ r with notified := true }, by rw [if_pos h], ?_⟩
      refine ⟨rfl, rfl, rfl, rfl, rfl, rfl, rfl, Or.inr ⟨?_, rfl⟩⟩
      have := h
      unfold Reminder.newlyDue at this
      simp only [Bool.and_eq_true, Bool.not_eq_true'] at this
      exact this.1.2
    · exact ⟨r, by rw [if_neg h], rfl, rfl, rfl, rfl, rfl, rfl, rfl, Or.inl rfl⟩

/-- Closed instantiation of the C10 theorem at a two-element list. -/
theorem checkReminders_preserves_shape_witness :
    ∃ u, (checkReminders [sampleReminder, snoozedReminder] 100).1[0]? =
        Option.some u ∧
      u.id = sampleReminder.id ∧ u.billName = sampleReminder.billName ∧
      u.amount = sampleReminder.amount ∧ u.dueDate = sampleReminder.dueDate ∧
      u.dueTime = sampleReminder.dueTime ∧
      u.notificationSound = sampleReminder.notificationSound ∧
      u.snoozeUntil = sampleReminder.snoozeUntil ∧
      (u.notified = sampleReminder.notified ∨
        (sampleReminder.notified = false ∧ u.notified = true)) :=
  (checkReminders_preserves_shape [sampleReminder, snoozedReminder] 100).2.2
    0 sampleReminder rfl

/-- The periodic evaluation loop of the scheduler (App.tsx lines 299–302),
restricted to the engine's pure core: run `checkReminders` at each successive
instant, feeding each evaluation's updated list into the next; collect the
fired list of every tick. -/
def runTicks (rs : List Reminder) : List Int → List (List Reminder)
  | [] => []
  | t :: ts => (checkReminders rs t).2 :: runTicks (checkReminders rs t).1 ts

/-- Behaviour of the tick loop on a single never-snoozed reminder: tick `i`
fires `[r]` exactly when the due-instant has passed, the reminder entered the
loop un-notified, and no earlier tick instant had already passed the
due-instant; every other tick fires nothing. -/
theorem runTicks_single (ts : List Int) :
    ∀ (r : Reminder), r.snoozeUntil = Option.none →
      ∀ (i : Nat) (t : Int), ts[i]? = Option.some t →
        (runTicks [r] ts)[i]? = Option.some
          (if r.dueInstant ≤ t ∧ r.notified = false ∧
              (∀ s ∈ ts.take i, ¬ r.dueInstant ≤ s)
           then [r] else []) := by
  induction ts with
  | nil =>
    intro r _ i t ht
    simp at ht
  | cons t0 ts ih =>
    intro r hs i t ht
    have hsn : r.isSnoozed t0 = false := by
      unfold Reminder.isSnoozed
      rw [hs]
    have hnd : r.newlyDue t0 = true ↔
        (r.dueInstant ≤ t0 ∧ r.notified = false) := by
      unfold Reminder.newlyDue
      simp [hsn]
    cases i with
    | zero =>
      rw [List.getElem?_cons_zero, Option.some.injEq] at ht
      subst ht
      simp only [runTicks, List.getElem?_cons_zero, List.take_zero,
        List.not_mem_nil, false_implies, implies_true, and_true,
        Option.some.injEq]
      unfold checkReminders checkReminders
      by_cases hdue : r.newlyDue t0 = true
      · rw [if_pos hdue, if_pos (hnd.mp hdue)]
      · rw [if_neg hdue, if_neg (fun hcon => hdue (hnd.mpr hcon))]
    | succ i =>
      rw [List.getElem?_cons_succ] at ht
      have hstep : (checkReminders [r] t0).1 =
          [if r.newlyDue t0 then { r with notified := true } else r] := by
        unfold checkReminders checkReminders
        by_cases h : r.newlyDue t0 = true
        · rw [if_pos h, if_pos h]
        · rw [if_neg h, if_neg h]
      have hrun : (runTicks [r] (t0 :: ts))[i+1]? =
          (runTicks [if r.newlyDue t0 then { r with notified := true } else r]
            ts)[i]? := by
        simp only [runTicks, List.getElem?_cons_succ, hstep]
      rw [hrun]
      by_cases hfire : r.newlyDue t0 = true
      · rw [if_pos hfire,
          ih { r with notified := true } (by simpa using hs) i t ht]
        have hleft : ¬ (({ r with notified := true } : Reminder).dueInstant ≤ t ∧
            ({ r with notified := true } : Reminder).notified = false ∧
            ∀ s ∈ ts.take i,
              ¬ ({ r with notified := true } : Reminder).dueInstant ≤ s) := by
          rintro ⟨-, hfalse, -⟩
          exact absurd hfalse (by simp)
        have hright : ¬ (r.dueInstant ≤ t ∧ r.notified = false ∧
            ∀ s ∈ (t0 :: ts).take (i + 1), ¬ r.dueInstant ≤ s) := by
          rintro ⟨-, -, hall⟩
          exact hall t0 (by simp [List.take_succ_cons]) (hnd.mp hfire).1
        rw [if_neg hleft, if_neg hright]
      · rw [if_neg hfire, ih r hs i t ht]
        refine congrArg Option.some (if_congr ?_ rfl rfl)
        have hnf : ¬ (r.dueInstant ≤ t0 ∧ r.notified = false) :=
          fun hcon => hfire (hnd.mpr hcon)
        simp only [List.take_succ_cons, List.mem_cons, forall_eq_or_imp]
        constructor
        · rintro ⟨h1, h2, h3⟩
          exact ⟨h1, h2, fun hd => hnf ⟨hd, h2⟩, h3⟩
        · rintro ⟨h1, h2, -, h3⟩
          exact ⟨h1, h2, h3⟩

/-- Quantifying over a prefix of a list is the same as quantifying over the
indices below the cut. -/
theorem forall_mem_take_iff (ts : List Int) (i : Nat) (P : Int → Prop) :
    (∀ s ∈ ts.take i, P s) ↔
      (∀ (j : Nat) (s : Int), j < i → ts[j]? = Option.some s → P s) := by
  constructor
  · intro h j s hj hjs
    apply h
    rw [List.mem_iff_getElem?]
    exact ⟨j, by rw [List.getElem?_take, if_pos hj]; exact hjs⟩
  · intro h s hmem
    rw [List.mem_iff_getElem?] at hmem
    obtain ⟨j, hj⟩ := hmem
    rw [List.getElem?_take] at hj
    by_cases hlt : j < i
    · rw [if_pos hlt] at hj
      exact h j s hlt hj
    · rw [if_neg hlt] at hj
      exact absurd hj (by simp)

/-- C3: for a reminder with a fixed due-instant, no snooze, and `notified`
initially false, along a monotone sequence of tick instants with each tick's
updated list feeding the next, the fired list is `[r]` exactly at the first
tick whose instant has reached the due-instant, and empty at every other
tick: no premature fire and no repeat fire. -/
theorem runTicks_exactly_once_fire (r : Reminder) (ts : List Int)
    (hn : r.notified = false) (hs : r.snoozeUntil = Option.none)
    (hmono : ts.Pairwise (· ≤ ·)) :
    ∀ (i : Nat) (t : Int), ts[i]? = Option.some t →
      ((runTicks [r] ts)[i]? = Option.some [r] ↔
        (r.dueInstant ≤ t ∧
          ∀ (j : Nat) (s : Int), j < i → ts[j]? = Option.some s →
            ¬ r.dueInstant ≤ s)) ∧
      (¬ (r.dueInstant ≤ t ∧
          ∀ (j : Nat) (s : Int), j < i → ts[j]? = Option.some s →
            ¬ r.dueInstant ≤ s) →
        (runTicks [r] ts)[i]? = Option.some []) := by
  intro i t ht
  have hrun := runTicks_single ts r hs i t ht
  have hcond : (r.dueInstant ≤ t ∧ r.notified = false ∧
      (∀ s ∈ ts.take i, ¬ r.dueInstant ≤ s)) ↔
      (r.dueInstant ≤ t ∧
        ∀ (j : Nat) (s : Int), j < i → ts[j]? = Option.some s →
          ¬ r.dueInstant ≤ s) := by
    rw [forall_mem_take_iff]
    constructor
    · rintro ⟨h1, -, h3⟩
      exact ⟨h1, h3⟩
    · rintro ⟨h1, h3⟩
      exact ⟨h1, hn, h3⟩
  constructor
  · constructor
    · intro hfind
      by_contra hnc
      rw [if_neg (fun hcon => hnc (hcond.mp hcon))] at hrun
      rw [hrun] at hfind
      simp at hfind
    · intro hc
      rw [if_pos (hcond.mpr hc)] at hrun
      exact hrun
  · intro hnc
    rw [if_neg (fun hcon => hnc (hcond.mp hcon))] at hrun
    exact hrun

/-- Closed instantiation of the C3 theorem: `sampleReminder` (due-instant 0)
does not fire at tick instant −5 and fires at the next tick instant 20. -/
theorem runTicks_exactly_once_fire_witness :
    (runTicks [sampleReminder] [(-5 : Int), 20])[0]? = Option.some [] ∧
    (runTicks [sampleReminder] [(-5 : Int), 20])[1]? =
      Option.some [sampleReminder] := by
  constructor
  · exact (runTicks_exactly_once_fire sampleReminder [(-5 : Int), 20] rfl rfl
      (by decide) 0 (-5) (by decide)).2 (fun hcon => by
        have := hcon.1
        revert this
        decide)
  · apply (runTicks_exactly_once_fire sampleReminder [(-5 : Int), 20] rfl rfl
      (by decide) 1 20 (by decide)).1.mpr
    refine ⟨by decide, ?_⟩
    intro j s hj hjs
    interval_cases j
    rw [show (([(-5 : Int), 20] : List Int)[0]?) = Option.some (-5) by decide,
      Option.some.injEq] at hjs
    subst hjs
    decide

/-- C4: snoozing an id sets `snoozeUntil = now + 10 min` (600000 ms) and
`notified = false` on the reminder with that id, leaving its other fields and
every other reminder in place, and removes exactly the entries with that id
from the active-notification list. -/
theorem handleSnoozeReminder_spec (st : AppState) (id : String) (now : Int) :
    (∀ (i : Nat) (r : Reminder), st.reminders[i]? = Option.some r →
      (r.id = id → (handleSnoozeReminder st id now).reminders[i]? =
        Option.some { r with snoozeUntil := Option.some (now + 600000),
                             notified := false }) ∧
      (r.id ≠ id → (handleSnoozeReminder st id now).reminders[i]? =
        Option.some r)) ∧
    (∀ n ∈ (handleSnoozeReminder st id now).activeNotifications, n.id ≠ id) ∧
    (∀ n ∈ st.activeNotifications, n.id ≠ id →
      n ∈ (handleSnoozeReminder st id now).activeNotifications) := by
  refine ⟨?_, ?_, ?_⟩
  · intro i r hi
    unfold handleSnoozeReminder
    constructor
    · intro hid
      simp only [List.getElem?_map, hi, Option.map_some']
      rw [if_pos hid]
    · intro hid
      simp only [List.getElem?_map, hi, Option.map_some']
      rw [if_neg hid]
  · intro n hn
    unfold handleSnoozeReminder at hn
    simp only [List.mem_filter, decide_eq_true_iff] at hn
    exact hn.2
  · intro n hn hne
    unfold handleSnoozeReminder
    simp only [List.mem_filter, decide_eq_true_iff]
    exact ⟨hn, hne⟩

/-- Closed instantiation of the C4 theorem: snoozing `"r1"` at instant 100 in
a state holding `sampleReminder` both in the store and as an active toast. -/
theorem handleSnoozeReminder_spec_witness :
    (handleSnoozeReminder
        { reminders := [sampleReminder],
          activeNotifications := [sampleReminder] } "r1" 100).reminders[0]? =
      Option.some { sampleReminder with
        snoozeUntil := Option.some (100 + 600000), notified := false } ∧
    ∀ n ∈ (handleSnoozeReminder
        { reminders := [sampleReminder],
          activeNotifications := [sampleReminder] } "r1" 100).activeNotifications,
      n.id ≠ "r1" := by
  constructor
  · exact ((handleSnoozeReminder_spec
      { reminders := [sampleReminder], activeNotifications := [sampleReminder] }
      "r1" 100).1 0 sampleReminder (by decide)).1 rfl
  · exact (handleSnoozeReminder_spec
      { reminders := [sampleReminder], activeNotifications := [sampleReminder] }
      "r1" 100).2.1

/-- C5: saving an edit resets `notified`/`snoozeUntil` exactly when the due
date or time was changed and the recomputed due-instant is strictly in the
future; otherwise the persisted values carry over; the id always survives. -/
theorem reminderModalSubmit_edit_reconcile (old : Reminder)
    (form : ReminderForm) (now : Int) (freshId : String) :
    ((old.dueDate ≠ form.dueDate ∨ old.dueTime ≠ form.dueTime) →
      now < combine form.dueDate form.dueTime →
      (reminderModalSubmit (Option.some old) form now freshId).notified = false ∧
      (reminderModalSubmit (Option.some old) form now freshId).snoozeUntil =
        Option.none) ∧
    (((old.dueDate = form.dueDate ∧ old.dueTime = form.dueTime) ∨
        ¬ now < combine form.dueDate form.dueTime) →
      (reminderModalSubmit (Option.some old) form now freshId).notified =
        old.notified ∧
      (reminderModalSubmit (Option.some old) form now freshId).snoozeUntil =
        old.snoozeUntil) ∧
    (reminderModalSubmit (Option.some old) form now freshId).id = old.id := by
  have hnot : (reminderModalSubmit (Option.some old) form now freshId).notified
      = if shouldResetStatus old form now then false else old.notified := rfl
  have hsnz : (reminderModalSubmit (Option.some old) form now freshId).snoozeUntil
      = if shouldResetStatus old form now then Option.none
        else old.snoozeUntil := rfl
  refine ⟨?_, ?_, rfl⟩
  · intro hdiff hfut
    have hb : shouldResetStatus old form now = true := by
      unfold shouldResetStatus
      rcases hdiff with h | h
      · simp [h, hfut]
      · simp [h, hfut]
    rw [hnot, hsnz, hb]
    exact ⟨rfl, rfl⟩
  · intro hkeep
    have hb : shouldResetStatus old form now = false := by
      unfold shouldResetStatus
      rcases hkeep with ⟨h1, h2⟩ | h
      · simp [h1, h2]
      · simp [h]
    rw [hnot, hsnz, hb]
    exact ⟨rfl, rfl⟩

/-- A notified, snoozed variant of `sampleReminder`, for exercising the
edit-reconciliation rule. -/
def editedReminder : Reminder :=
  { sampleReminder with notified := true, snoozeUntil := Option.some 5 }

/-- A submitted form that moves the due time one minute later than
`sampleReminder`. -/
def rescheduleForm : ReminderForm :=
  { billName := "Rent", amount := 50,
    dueDate := { year := 1970, month := 1, day := 1 },
    dueTime := { hour := 0, minute := 1 },
    notificationSound := NotificationSound.beep }

/-- A submitted form that edits unrelated fields and keeps the due date and
time of `sampleReminder`. -/
def unrelatedEditForm : ReminderForm :=
  { billName := "Water", amount := 75,
    dueDate := { year := 1970, month := 1, day := 1 },
    dueTime := { hour := 0, minute := 0 },
    notificationSound := NotificationSound.chime }

/-- Closed instantiation of the C5 theorem: pushing the due time of an
already-notified, snoozed reminder one minute into the future (relative to
submission instant 0) resets `notified` and `snoozeUntil`, and an unrelated
edit preserves both. -/
theorem reminderModalSubmit_edit_reconcile_witness :
    ((reminderModalSubmit (Option.some editedReminder) rescheduleForm
        0 "fresh").notified = false ∧
      (reminderModalSubmit (Option.some editedReminder) rescheduleForm
        0 "fresh").snoozeUntil = Option.none) ∧
    ((reminderModalSubmit (Option.some editedReminder) unrelatedEditForm
        0 "fresh").notified = true ∧
      (reminderModalSubmit (Option.some editedReminder) unrelatedEditForm
        0 "fresh").snoozeUntil = Option.some 5) := by
  constructor
  · exact (reminderModalSubmit_edit_reconcile editedReminder rescheduleForm
      0 "fresh").1 (Or.inr (by decide)) (by decide)
  · exact (reminderModalSubmit_edit_reconcile editedReminder unrelatedEditForm
      0 "fresh").2.1 (Or.inl ⟨rfl, rfl⟩)

/-- Counterexample to C6 as stated: `'default'` is not `'none'`, yet
`playNotificationSound` emits no audio or vibration effect for it — the JS
`switch` has no `'default'`-sound case, so it falls through the do-nothing
`default:` branch even when vibration is supported. -/
theorem playNotificationSound_default_silent :
    NotificationSound.default ≠ NotificationSound.none ∧
    playNotificationSound NotificationSound.default true = [] :=
  ⟨by decide, rfl⟩

/-- C6 as amended: a fired reminder produces an audio or vibration cue iff its
sound is `beep`, `chime`, or `vibrate` with vibration support; both `none`
and `default` produce no in-app cue (the `default` sound is delivered only via
the non-silent OS notification), and `vibrate` without device support is a
silent no-op. -/
theorem playNotificationSound_cue_iff (sound : NotificationSound)
    (vibrateSupported : Bool) :
    playNotificationSound sound vibrateSupported ≠ [] ↔
      (sound = NotificationSound.beep ∨ sound = NotificationSound.chime ∨
        (sound = NotificationSound.vibrate ∧ vibrateSupported = true)) := by
  cases sound <;> cases vibrateSupported <;> simp [playNotificationSound]

/-- C7: routing a fired reminder depends on visibility.  Foreground: the
reminder joins the active-notification list, any prior entry with its id is
dropped (so id-uniqueness is preserved), other entries survive, nothing else
is added, and no OS notification is emitted regardless of permission.
Background with permission granted: the active list is untouched and exactly
one OS notification is emitted, carrying the bill name and the formatted
amount in its body and marked silent unless the sound is `'default'`. -/
theorem routeReminder_visibility (r : Reminder) (permissionGranted : Bool)
    (active : List Reminder) :
    (r ∈ (routeReminder r false permissionGranted active).1 ∧
      (∀ n ∈ (routeReminder r false permissionGranted active).1,
        n.id = r.id → n = r) ∧
      (∀ n ∈ active, n.id ≠ r.id →
        n ∈ (routeReminder r false permissionGranted active).1) ∧
      (∀ n ∈ (routeReminder r false permissionGranted active).1,
        n ∈ active ∨ n = r) ∧
      ((active.map Reminder.id).Nodup →
        ((routeReminder r false permissionGranted active).1.map
          Reminder.id).Nodup) ∧
      (routeReminder r false permissionGranted active).2 = Option.none) ∧
    ((routeReminder r true true active).1 = active ∧
      (routeReminder r true true active).2 = Option.some
        { title := "Bill Reminder",
          body := r.billName ++ " for $" ++ toFixed2 r.amount ++ " is due!",
          silent := !(r.notificationSound = NotificationSound.default : Bool) } ∧
      ∀ osn, (routeReminder r true true active).2 = Option.some osn →
        (osn.silent = false ↔
          r.notificationSound = NotificationSound.default)) := by
  constructor
  · unfold routeReminder
    simp only [if_neg (Bool.false_ne_true)]
    refine ⟨?_, ?_, ?_, ?_, ?_, by trivial⟩
    · simp
    · intro n hn hid
      rcases List.mem_append.mp hn with h | h
      · rw [List.mem_filter, decide_eq_true_iff] at h
        exact absurd hid h.2
      · simpa using h
    · intro n hn hne
      exact List.mem_append.mpr (Or.inl
        (List.mem_filter.mpr ⟨hn, decide_eq_true hne⟩))
    · intro n hn
      rcases List.mem_append.mp hn with h | h
      · exact Or.inl (List.mem_filter.mp h).1
      · exact Or.inr (by simpa using h)
    · intro hnd
      rw [List.map_append, List.nodup_append]
      refine ⟨((List.filter_sublist active).map Reminder.id).nodup hnd,
        List.nodup_singleton r.id, ?_⟩
      intro x hx hy
      simp only [List.map_cons, List.map_nil, List.mem_singleton] at hy
      subst hy
      rw [List.mem_map] at hx
      obtain ⟨n, hn, hid⟩ := hx
      rw [List.mem_filter, decide_eq_true_iff] at hn
      exact hn.2 hid
  · refine ⟨rfl, rfl, ?_⟩
    intro osn hosn
    rw [show (routeReminder r true true active).2 = Option.some
        { title := "Bill Reminder",
          body := r.billName ++ " for $" ++ toFixed2 r.amount ++ " is due!",
          silent := !(r.notificationSound = NotificationSound.default : Bool) }
      from rfl, Option.some.injEq] at hosn
    subst hosn
    by_cases h : r.notificationSound = NotificationSound.default
    · simp [h]
    · simp [h]

/-- `toFixed(2)` evaluation at the sample amount. -/
theorem toFixed2_fifty : toFixed2 50 = "50.00" := by
  simp only [toFixed2]
  rw [show ((50 : ℚ) * 100 + 1/2).floor = 5000 by rw [Rat.floor_def']; norm_num]
  rfl

/-- Closed instantiation of the C7 theorem: in the foreground the sample
reminder replaces the stale copy with its id; in the background with
permission, an OS notification with the formatted body is emitted. -/
theorem routeReminder_visibility_witness :
    sampleReminder ∈
      (routeReminder sampleReminder false true [snoozedReminder]).1 ∧
    (routeReminder sampleReminder true true [snoozedReminder]).2 =
      Option.some
        { title := "Bill Reminder", body := "Rent for $50.00 is due!",
          silent := true } := by
  constructor
  · exact (routeReminder_visibility sampleReminder true [snoozedReminder]).1.1
  · rw [(routeReminder_visibility sampleReminder true [snoozedReminder]).2.2.1]
    rw [show sampleReminder.amount = (50 : ℚ) from rfl, toFixed2_fifty]
    rfl

/-- The source's `reduce((sum, t) => sum + t.amount, 0)` accumulation is the
sum of the amounts. -/
theorem foldl_add_amount (ts : List Transaction) (a : ℚ) :
    ts.foldl (fun sum t => sum + t.amount) a = a + (ts.map Transaction.amount).sum := by
  induction ts generalizing a with
  | nil => simp
  | cons t ts ih =>
    simp only [List.foldl_cons, List.map_cons, List.sum_cons, ih]
    ring

/-- C8: the month filter keeps exactly the transactions whose date has the
viewed calendar year and month, and on any transaction list `totalIncome` is
the sum of the income amounts, `totalExpenses` the sum of the expense
amounts, and `balance` their difference. -/
theorem filterToMonth_summarize_spec (ts : List Transaction) (year : Int)
    (month : Nat) :
    (∀ t, t ∈ filterToMonth ts year month ↔
      t ∈ ts ∧ t.date.year = year ∧ t.date.month = month) ∧
    totalIncome ts =
      ((ts.filter (fun t => decide (t.type = TransactionType.income))).map
        Transaction.amount).sum ∧
    totalExpenses ts =
      ((ts.filter (fun t => decide (t.type = TransactionType.expense))).map
        Transaction.amount).sum ∧
    balance ts = totalIncome ts - totalExpenses ts := by
  refine ⟨?_, ?_, ?_, rfl⟩
  · intro t
    unfold filterToMonth
    rw [List.mem_filter, decide_eq_true_iff]
  · unfold totalIncome
    rw [foldl_add_amount, zero_add]
  · unfold totalExpenses
    rw [foldl_add_amount, zero_add]

/-- A transaction dated 2024-01-31. -/
def janTransaction : Transaction :=
  { id := "t1", type := TransactionType.income, category := "Salary",
    amount := 100, date := { year := 2024, month := 1, day := 31 },
    description := "" }

/-- Closed instantiation of the C8 theorem: the 2024-01-31 transaction is
kept when viewing January 2024 and dropped when viewing February 2024. -/
theorem filterToMonth_summarize_spec_witness :
    janTransaction ∈ filterToMonth [janTransaction] 2024 1 ∧
    janTransaction ∉ filterToMonth [janTransaction] 2024 2 := by
  constructor
  · exact ((filterToMonth_summarize_spec [janTransaction] 2024 1).1
      janTransaction).mpr ⟨by simp, rfl, rfl⟩
  · intro hmem
    have h := ((filterToMonth_summarize_spec [janTransaction] 2024 2).1
      janTransaction).mp hmem
    exact absurd h.2.2 (by decide)

instance (s : AppState) : Decidable (idInv s) := by
  unfold idInv
  infer_instance

/-- Counterexample to C9 as stated: starting from a store holding the due
`sampleReminder` and no toasts, a foreground tick fires the reminder into the
active-notification list, and deleting the reminder then leaves that toast in
place — `handleDeleteReminder` (App.tsx lines 353–355) filters only the
store, so the set now holds an id absent from the Reminder Store. -/
theorem delete_leaves_stale_notification :
    ¬ idInv (applyOps { reminders := [sampleReminder], activeNotifications := [] }
        [Op.tickOp 100 false false, Op.delete "r1"]) := by
  decide

/-- Every element of the folded foreground routing comes from the initial
active list or from the fired list. -/
theorem foldl_route_mem (hidden permissionGranted : Bool) :
    ∀ (fired act : List Reminder) (n : Reminder),
      n ∈ fired.foldl
        (fun a r => (routeReminder r hidden permissionGranted a).1) act →
      n ∈ act ∨ n ∈ fired := by
  intro fired
  induction fired with
  | nil =>
    intro act n h
    exact Or.inl h
  | cons r fired ih =>
    intro act n h
    simp only [List.foldl_cons] at h
    rcases ih _ n h with h1 | h1
    · unfold routeReminder at h1
      cases hidden with
      | true =>
        rw [if_pos rfl] at h1
        exact Or.inl h1
      | false =>
        rw [if_neg Bool.false_ne_true] at h1
        rcases List.mem_append.mp h1 with h2 | h2
        · exact Or.inl (List.mem_filter.mp h2).1
        · have hnr : n = r := by simpa using h2
          exact Or.inr (hnr ▸ List.mem_cons_self r fired)
    · exact Or.inr (List.mem_cons_of_mem r h1)

/-- The updated store of a tick carries every input id. -/
theorem checkReminders_id_surjective (rs : List Reminder) (now : Int) :
    ∀ x ∈ rs, ∃ u ∈ (checkReminders rs now).1, u.id = x.id := by
  intro x hx
  rw [checkReminders_fst]
  refine ⟨if x.newlyDue now then { x with notified := true } else x,
    List.mem_map_of_mem _ hx, ?_⟩
  by_cases h : x.newlyDue now = true
  · rw [if_pos h]
  · rw [if_neg h]

/-- A tick preserves the ActiveNotification-set invariant. -/
theorem tick_preserves_idInv (s : AppState) (now : Int)
    (hidden permissionGranted : Bool) (hinv : idInv s) :
    idInv (tick s now hidden permissionGranted) := by
  intro n hn
  unfold tick at hn ⊢
  simp only at hn ⊢
  have hmem := foldl_route_mem hidden permissionGranted
    (checkReminders s.reminders now).2 s.activeNotifications n hn
  have hsrc : ∃ r ∈ s.reminders, r.id = n.id := by
    rcases hmem with h | h
    · exact hinv n h
    · rw [checkReminders_snd] at h
      exact ⟨n, (List.mem_filter.mp h).1, rfl⟩
  obtain ⟨r, hr, hrid⟩ := hsrc
  by_cases he : (checkReminders s.reminders now).2.isEmpty = true
  · rw [if_pos he]
    exact ⟨r, hr, hrid⟩
  · rw [if_neg he]
    obtain ⟨u, hu, huid⟩ := checkReminders_id_surjective s.reminders now r hr
    exact ⟨u, hu, huid.trans hrid⟩

/-- Saving a reminder preserves the ActiveNotification-set invariant. -/
theorem handleSaveReminder_preserves_idInv (s : AppState) (reminder : Reminder)
    (hinv : idInv s) : idInv (handleSaveReminder s reminder) := by
  intro n hn
  unfold handleSaveReminder at hn ⊢
  simp only at hn ⊢
  obtain ⟨r, hr, hrid⟩ := hinv n hn
  by_cases he : ((s.reminders.filter
      (fun x => decide (x.id = reminder.id))).isEmpty) = true
  · rw [if_pos he]
    exact ⟨r, List.mem_append.mpr (Or.inl hr), hrid⟩
  · rw [if_neg he]
    refine ⟨if r.id = reminder.id then reminder else r,
      List.mem_map_of_mem _ hr, ?_⟩
    by_cases hid : r.id = reminder.id
    · rw [if_pos hid, ← hid, hrid]
    · rw [if_neg hid, hrid]

/-- Snoozing preserves the ActiveNotification-set invariant. -/
theorem handleSnoozeReminder_preserves_idInv (s : AppState) (id : String)
    (now : Int) (hinv : idInv s) : idInv (handleSnoozeReminder s id now) := by
  intro n hn
  unfold handleSnoozeReminder at hn ⊢
  simp only at hn ⊢
  obtain ⟨r, hr, hrid⟩ := hinv n (List.mem_filter.mp hn).1
  by_cases hid : r.id = id
  · refine ⟨{ r with snoozeUntil := Option.some (now + 600000), notified := false }, ?_, hrid⟩
    exact List.mem_map.mpr ⟨r, hr, by rw [if_pos hid]⟩
  · refine ⟨r, ?_, hrid⟩
    exact List.mem_map.mpr ⟨r, hr, by rw [if_neg hid]⟩

/-- Dismissing preserves the ActiveNotification-set invariant. -/
theorem handleDismissNotification_preserves_idInv (s : AppState) (id : String)
    (hinv : idInv s) : idInv (handleDismissNotification s id) := by
  intro n hn
  unfold handleDismissNotification at hn
  exact hinv n (List.mem_filter.mp hn).1

/-- C9 as amended: the ActiveNotification set holds only ids present in the
Reminder Store after every sequence of ticks, saves, snoozes and dismissals —
but not deletions: `handleDeleteReminder` does not clear the set, and the
counterexample shows a delete can strand a toast whose id has left the
store. -/
theorem non_delete_ops_preserve_idInv (s : AppState) (ops : List Op)
    (hinv : idInv s) (hops : ∀ op ∈ ops, ∀ id, op ≠ Op.delete id) :
    idInv (applyOps s ops) := by
  induction ops generalizing s with
  | nil => exact hinv
  | cons op ops ih =>
    have hstep : idInv (applyOp s op) := by
      cases op with
      | tickOp now hidden perm => exact tick_preserves_idInv s now hidden perm hinv
      | save r => exact handleSaveReminder_preserves_idInv s r hinv
      | delete id => exact absurd rfl (hops (Op.delete id) (List.mem_cons_self _ _) id)
      | snooze id now => exact handleSnoozeReminder_preserves_idInv s id now hinv
      | dismiss id => exact handleDismissNotification_preserves_idInv s id hinv
    exact ih (applyOp s op) hstep
      (fun o ho id => hops o (List.mem_cons_of_mem op ho) id)

/-- Closed instantiation of the C9 amended theorem: a tick that fires the
sample reminder, a snooze, and a dismissal keep the invariant. -/
theorem non_delete_ops_preserve_idInv_witness :
    idInv (applyOps { reminders := [sampleReminder], activeNotifications := [] }
      [Op.tickOp 100 false false, Op.snooze "r1" 100, Op.dismiss "r1"]) := by
  apply non_delete_ops_preserve_idInv
  · intro n hn
    exact absurd hn (List.not_mem_nil n)
  · intro op hop id
    simp only [List.mem_cons, List.not_mem_nil, or_false] at hop
    rcases hop with rfl | rfl | rfl
    · simp
    · simp
    · simp
